import Mathlib

/-
Shallow embedding of the bimodal-multicast (BMMC) protocol core:
the reconciliation handlers and callback dispatch of
pkg/internal/server/server.go, the custom callback registry of the
callback package, and the server lifecycle.  Packages of the repository
that are not part of the given sources (the buffer package, the httputil
wire helpers, the default callback registry) are modelled from the
specification and marked as such in their doc comments.
-/

namespace BMMC

/-- Modelled from the spec: `buffer.Message` (the buffer package is not in
the given sources).  A message carries an opaque identifier (primary key),
an opaque payload, a callback-type tag (or the sentinel `NONE`) and a
local gossip counter. -/
structure Message where
  ID : String
  Msg : String
  CallbackType : String
  GossipCount : Nat
deriving DecidableEq, Repr

/-- Modelled from the spec: a digest is the minimal fingerprint of a
message, its `id` plus `callback_type`. -/
structure Digest where
  ID : String
  CallbackType : String
deriving DecidableEq, Repr

/-- Modelled from the spec: `peer.Peer`, an `(addr, port)` pair with
structural equality. -/
structure Peer where
  Addr : String
  Port : String
deriving DecidableEq, Repr

/-- Modelled from the spec: a Peer Buffer is a collection of peers. -/
abbrev PeerBuffer : Type := List Peer

/-- Modelled from the spec: `buffer.MessageBuffer`, the set of messages a
node currently holds (the mutex guarding it is not observable in a pure
embedding). -/
structure MessageBuffer where
  messages : List Message
deriving DecidableEq, Repr

/-- Modelled from the spec: the sentinel callback type `NONE`
(`callback.NOCALLBACK` in the source imports). -/
def NOCALLBACK : String := "NONE"

/-- Modelled from the spec: the reserved default callback name `ADDPEER`. -/
def ADDPEER : String := "ADDPEER"

/-- Modelled from the spec: the reserved default callback name `REMOVEPEER`. -/
def REMOVEPEER : String := "REMOVEPEER"

/-- Modelled from the spec: membership of an identifier in a message
buffer (the uniqueness key of `AddMessage`). -/
def MessageBuffer.containsID (buf : MessageBuffer) (id : String) : Bool :=
  buf.messages.any (fun x => x.ID = id)

/-- Modelled from the spec: `MessageBuffer.AddMessage(m)` inserts `m` if
no message with `m.id` exists, otherwise it is a no-op (idempotent on
`id`). -/
def MessageBuffer.addMessage (buf : MessageBuffer) (m : Message) : MessageBuffer :=
  if buf.containsID m.ID then buf else ⟨buf.messages ++ [m]⟩

/-- Modelled from the spec: `MessageBuffer.DigestBuffer()` returns one
digest per message with matching `id` and `callback_type`. -/
def MessageBuffer.digestBuffer (buf : MessageBuffer) : List Digest :=
  buf.messages.map (fun m => ⟨m.ID, m.CallbackType⟩)

/-- Modelled from the spec: `DigestBuffer.GetMissingDigests(local)`
returns the digests present in the receiver but not in `local`;
digest-buffer membership is by `id`. -/
def getMissingDigests (sender locals : List Digest) : List Digest :=
  sender.filter (fun d => ¬ locals.any (fun l => l.ID = d.ID))

/-- Modelled from the spec: `DigestBuffer.GetMissingMessageBuffer(msgBuf)`
resolves the wanted digests against the local message buffer, dropping
every digest with no locally stored message. -/
def getMissingMessageBuffer (digests : List Digest) (buf : MessageBuffer) : List Message :=
  digests.filterMap (fun d => buf.messages.find? (fun m => m.ID = d.ID))

/-- Result of a callback invocation: the acceptance flag and an optional
error (Go `(bool, error)`). -/
structure CbResult where
  ok : Bool
  err : Option String
deriving DecidableEq, Repr

/-- Default callback signature from server.go: it receives the message, an
optional second argument (the peer buffer, for membership callbacks, else
nil) and may mutate that target; the mutated target is returned
explicitly here since the embedding is pure. -/
def DefaultCallback : Type := Message → Option PeerBuffer → CbResult × Option PeerBuffer

/-- Custom callback signature from server.go: it receives the message
payload and returns `(ok, err)`. -/
def CustomCallback : Type := String → CbResult

/-- Server configuration, restricted to the fields the handlers read; the
two callback registries are modelled from the spec as tables keyed by
`callback_type` (their registry types are not in the given sources). -/
structure Config where
  DefaultCallbacks : List (String × DefaultCallback)
  CustomCallbacks : List (String × CustomCallback)

/-- Modelled from the spec: registry lookup
`GetDefaultCallback(callbackType)`; an absent type yields an error,
collapsed to `none` here. -/
def Config.getDefaultCallback (cfg : Config) (t : String) : Option DefaultCallback :=
  cfg.DefaultCallbacks.lookup t

/-- Modelled from the spec: registry lookup
`GetCustomCallback(callbackType)`; an absent type yields an error,
collapsed to `none` here. -/
def Config.getCustomCallback (cfg : Config) (t : String) : Option CustomCallback :=
  cfg.CustomCallbacks.lookup t

/-- The shared mutable state a handler can touch: the message buffer and
the peer buffer. -/
structure ServerState where
  msgBuf : MessageBuffer
  peerBuf : PeerBuffer
deriving DecidableEq

/-- The second argument passed to a default callback, per the switch in
`runDefaultCallbacks`: the peer buffer for `ADDPEER`/`REMOVEPEER`,
nil otherwise. -/
def peerArg (m : Message) (st : ServerState) : Option PeerBuffer :=
  if m.CallbackType = ADDPEER then some st.peerBuf
  else if m.CallbackType = REMOVEPEER then some st.peerBuf
  else none

/-- Embedding of `runDefaultCallbacks` (server.go): look up the default
callback for the message type (absent: return unchanged), run it with the
target selected by the switch, and add the message to the buffer exactly
when the callback returned `ok = true`; a returned error is only
logged. -/
def runDefaultCallbacks (m : Message) (cfg : Config) (st : ServerState) : ServerState :=
  match cfg.getDefaultCallback m.CallbackType with
  | none => st
  | some callbackFn =>
    let r := callbackFn m (peerArg m st)
    let st1 : ServerState := { st with peerBuf := r.2.getD st.peerBuf }
    if r.1.ok then { st1 with msgBuf := st1.msgBuf.addMessage m } else st1

/-- Embedding of `runCustomCallbacks` (server.go): look up the custom
callback for the message type (absent: return unchanged), run it on the
payload, and add the message to the buffer exactly when the callback
returned `ok = true`; a returned error is only logged. -/
def runCustomCallbacks (m : Message) (cfg : Config) (st : ServerState) : ServerState :=
  match cfg.getCustomCallback m.CallbackType with
  | none => st
  | some callbackFn =>
    let r := callbackFn m.Msg
    if r.ok then { st with msgBuf := st.msgBuf.addMessage m } else st

/-- Embedding of the loop body of `synchronizationHandler` (server.go):
a message with a callback type runs the default then the custom dispatch;
a `NONE` message is added to the buffer directly. -/
def processSyncMessage (cfg : Config) (st : ServerState) (m : Message) : ServerState :=
  if m.CallbackType ≠ NOCALLBACK then
    runCustomCallbacks m cfg (runDefaultCallbacks m cfg st)
  else
    { st with msgBuf := st.msgBuf.addMessage m }

/-- Model of Go `strings.Split(s, ":")` on the character list of the host
string: splitting on the single-character separator, where a string
without the separator yields the one-element list holding the whole
string. -/
def splitOnColon : List Char → List (List Char)
  | [] => [[]]
  | c :: rest =>
    let r := splitOnColon rest
    if c = ':' then [] :: r
    else
      match r with
      | [] => [[c]]
      | h :: t => (c :: h) :: t

/-- Embedding of the host parsing common to the three handlers
(server.go): `host := strings.Split(r.Host, ":")`, then the unchecked
reads `host[0]` and `host[1]`.  An out-of-bounds read is a Go panic,
modelled as `none`. -/
def parseHost (host : String) : Option (String × String) :=
  match splitOnColon host.data with
  | a :: b :: _ => some (⟨a⟩, ⟨b⟩)
  | _ => none

/-- Modelled from the spec: the wire body of a gossip message
(`httputil.HTTPGossip`): sender address and port, the sender's round
number, and the sender's digest buffer. -/
structure HTTPGossip where
  Addr : String
  Port : String
  RoundNumber : Nat
  Digests : List Digest
deriving DecidableEq, Repr

/-- Modelled from the spec: the wire body of a solicitation
(`httputil.HTTPSolicitation`). -/
structure HTTPSolicitation where
  Addr : String
  Port : String
  RoundNumber : Nat
  Digests : List Digest
deriving DecidableEq, Repr

/-- Modelled from the spec: the wire body of a synchronization
(`httputil.HTTPSynchronization`): sender address and port and the carried
messages. -/
structure HTTPSynchronization where
  Addr : String
  Port : String
  Messages : List Message
deriving DecidableEq, Repr

/-- An outbound send a handler performs: the reply body together with the
destination address and port it is sent to. -/
inductive Outbound where
  | solicitation (body : HTTPSolicitation) (toAddr toPort : String)
  | synchronization (body : HTTPSynchronization) (toAddr toPort : String)
deriving DecidableEq, Repr

/-- Embedding of `gossipHandler` (server.go).  The request is the raw
`Host` header plus the decode result of the body (`Except`: a decode
error is logged and the handler returns).  The result is the new state
with the list of sends, or `none` for the panic of the unchecked
`host[1]` read. -/
def gossipHandler (host : String) (body : Except String HTTPGossip)
    (st : ServerState) : Option (ServerState × List Outbound) :=
  match body with
  | .error _ => some (st, [])
  | .ok g =>
    let msgDigestBuffer := st.msgBuf.digestBuffer
    let missingDigestBuffer := getMissingDigests g.Digests msgDigestBuffer
    match parseHost host with
    | none => none
    | some (hostAddr, hostPort) =>
      if missingDigestBuffer.length > 0 then
        some (st, [.solicitation ⟨hostAddr, hostPort, g.RoundNumber, missingDigestBuffer⟩ g.Addr g.Port])
      else
        some (st, [])

/-- Embedding of `solicitationHandler` (server.go): resolve the wanted
digests against the local message buffer and send the synchronization to
the solicitation's sender. -/
def solicitationHandler (host : String) (body : Except String HTTPSolicitation)
    (st : ServerState) : Option (ServerState × List Outbound) :=
  match body with
  | .error _ => some (st, [])
  | .ok s =>
    let missingMsgs := getMissingMessageBuffer s.Digests st.msgBuf
    match parseHost host with
    | none => none
    | some (hostAddr, hostPort) =>
      some (st, [.synchronization ⟨hostAddr, hostPort, missingMsgs⟩ s.Addr s.Port])

/-- Embedding of `synchronizationHandler` (server.go): the host is split
before the body is decoded; a decode error is logged and the handler
returns; otherwise every received message is processed in order. -/
def synchronizationHandler (host : String) (body : Except String HTTPSynchronization)
    (cfg : Config) (st : ServerState) : Option (ServerState × List Outbound) :=
  match parseHost host with
  | none => none
  | some _ =>
    match body with
    | .error _ => some (st, [])
    | .ok sync => some (sync.Messages.foldl (processSyncMessage cfg) st, [])

/-- Modelled from the spec: the sentinel error `http.ErrServerClosed`
returned by `ListenAndServe` after a graceful shutdown. -/
def errServerClosed : String := "http: Server closed"

/-- Embedding of `startServer` (server.go): the parameter is the error
`ListenAndServe` eventually returns (`none` for a nil error); any error
other than `ErrServerClosed` is logged and returned, a graceful close
returns nil. -/
def startServer (listenErr : Option String) : Option String :=
  if listenErr ≠ some errServerClosed then listenErr else none

/-- Embedding of `Server.Start` (server.go): `startServer` runs in a
goroutine whose result is written to `errChan`, but the receive from
`errChan` is commented out in the source, and `Start` returns nil
unconditionally. -/
def serverStart (listenErr : Option String) : Option String :=
  let _errChanValue := startServer listenErr
  none

/-- Embedding of `Bmmc.Start`: it propagates a non-nil error of the HTTP
server's `Start` and otherwise starts the gossip server and returns
nil. -/
def bmmcStart (listenErr : Option String) : Option String :=
  match serverStart listenErr with
  | some e => some e
  | none => none

/-- Custom callback signature of the callback package (`NewCustomRegistry`
revision): payload and logger in, an optional error out. -/
def RegistryCallback : Type := String → Option String

/-- Error `callback map must not be nil` of the callback package. -/
def errNilCallbackMap : String := "callback map must not be nil"

/-- Error `callback doesn't exist in the custom registry` of the callback
package. -/
def errInexistentCustomCallback : String := "callback doesn't exist in the custom registry"

/-- Error `callback type is not allowed` of the callback package (the
identifier keeps the source's spelling). -/
def errNotAlowedCallbackType : String := "callback type is not allowed"

/-- Embedding of `callback.CustomRegistry`: a table of custom callbacks
keyed by callback type (a Go map, represented as an association list with
unique keys left implicit). -/
structure CustomRegistry where
  callbacks : List (String × RegistryCallback)

/-- Embedding of `callback.NewCustomRegistry(cb)`: a nil map (`none`) is
rejected with `errNilCallbackMap`; any non-nil map becomes the registry's
callback table. -/
def NewCustomRegistry (cb : Option (List (String × RegistryCallback))) :
    Except String CustomRegistry :=
  match cb with
  | none => .error errNilCallbackMap
  | some m => .ok ⟨m⟩

/-- Embedding of `CustomRegistry.GetCallback(t)`: the stored function when
`t` is a key of the map, `errInexistentCustomCallback` otherwise. -/
def CustomRegistry.GetCallback (r : CustomRegistry) (t : String) :
    Except String RegistryCallback :=
  match r.callbacks.lookup t with
  | some v => .ok v
  | none => .error errInexistentCustomCallback

/-- Modelled from the spec: the key set of the package-level
`defaultCallbacks` table (its defining file is not in the given sources);
the reserved default callback names are `ADDPEER` and `REMOVEPEER`. -/
def defaultCallbackNames : List String := [ADDPEER, REMOVEPEER]

/-- Embedding of `callback.ValidateCustomCallbacks`: iterate the custom
table's keys and reject with `errNotAlowedCallbackType` any key that is
also a key of the default table (iterating a nil map does nothing). -/
def ValidateCustomCallbacks (customCallbacks : Option (List (String × RegistryCallback))) :
    Option String :=
  if (customCallbacks.getD []).any (fun kv => defaultCallbackNames.contains kv.1) then
    some errNotAlowedCallbackType
  else
    none

/-- The message the default and custom dispatch agree to insert: some
matched callback returned `ok = true` (the default callback applied to
the target selected by the dispatch switch). -/
def matchedOk (cfg : Config) (st : ServerState) (m : Message) : Bool :=
  (match cfg.getDefaultCallback m.CallbackType with
   | some fn => (fn m (peerArg m st)).1.ok
   | none => false) ||
  (match cfg.getCustomCallback m.CallbackType with
   | some fn => (fn m.Msg).ok
   | none => false)

theorem splitOnColon_ne_nil (s : List Char) : splitOnColon s ≠ [] := by
  cases s with
  | nil => simp [splitOnColon]
  | cons c rest =>
    simp only [splitOnColon]
    split
    · simp
    · split <;> simp

theorem mem_colon_iff_two_le_length (s : List Char) :
    ':' ∈ s ↔ 2 ≤ (splitOnColon s).length := by
  induction s with
  | nil => simp [splitOnColon]
  | cons c rest ih =>
    by_cases hc : c = ':'
    · subst hc
      cases h : splitOnColon rest with
      | nil => exact absurd h (splitOnColon_ne_nil rest)
      | cons a t => simp [splitOnColon, h]
    · cases h : splitOnColon rest with
      | nil => exact absurd h (splitOnColon_ne_nil rest)
      | cons a t =>
        rw [h] at ih
        simp only [splitOnColon, h, if_neg hc, List.mem_cons, List.length_cons] at ih ⊢
        constructor
        · intro hor
          rcases hor with hd | htl
          · exact absurd hd.symm hc
          · exact ih.mp htl
        · intro hlen
          exact Or.inr (ih.mpr hlen)

theorem parseHost_isSome_iff (host : String) :
    (parseHost host).isSome ↔ ':' ∈ host.data := by
  rw [mem_colon_iff_two_le_length]
  unfold parseHost
  cases h : splitOnColon host.data with
  | nil => exact absurd h (splitOnColon_ne_nil host.data)
  | cons a t =>
    cases t with
    | nil => simp
    | cons b t2 => simp

theorem MessageBuffer.containsID_addMessage_self (buf : MessageBuffer) (m : Message) :
    (buf.addMessage m).containsID m.ID = true := by
  unfold MessageBuffer.addMessage
  split
  · assumption
  · simp [MessageBuffer.containsID]

/-- C10: every inbound handler splits the Host header on the colon and
reads elements 0 and 1 as the reply address and port; the read is in
bounds exactly when Host contains a colon, and for a Host without one
(such as `localhost`) the `host[1]` access is out of bounds, so the
synchronization handler panics on any body. -/
theorem host_split_bounds :
    (∀ host : String, (parseHost host).isSome ↔ ':' ∈ host.data) ∧
    parseHost "localhost" = none ∧
    (∀ (body : Except String HTTPSynchronization) (cfg : Config) (st : ServerState),
      synchronizationHandler "localhost" body cfg st = none) := by
  refine ⟨parseHost_isSome_iff, rfl, ?_⟩
  intro body cfg st
  have h : parseHost "localhost" = none := rfl
  simp [synchronizationHandler, h]

/-- C2 (code bug): a listen error other than `ErrServerClosed` — such as a
failure to bind the listening address — is returned by `startServer`, but
`Server.Start` (and hence `Bmmc.Start`) returns nil unconditionally: the
receive from the error channel is commented out in the source, so the
bind error is never surfaced to the caller. -/
theorem start_swallows_listen_error :
    startServer (some "listen tcp :80: bind: address already in use")
      = some "listen tcp :80: bind: address already in use" ∧
    serverStart (some "listen tcp :80: bind: address already in use") = none ∧
    bmmcStart (some "listen tcp :80: bind: address already in use") = none := by
  refine ⟨?_, rfl, rfl⟩
  decide

/-- C8: on every inbound exchange whose body fails to decode the handler
only logs and drops the hop: it emits no outbound send and leaves the
message buffer and the peer buffer unchanged (for the synchronization
handler, whose host split precedes the decode, under a well-formed Host
header). -/
theorem decode_error_drops_hop :
    (∀ (host e : String) (st : ServerState),
      gossipHandler host (.error e) st = some (st, [])) ∧
    (∀ (host e : String) (st : ServerState),
      solicitationHandler host (.error e) st = some (st, [])) ∧
    (∀ (host : String) (hp : String × String) (e : String) (cfg : Config) (st : ServerState),
      parseHost host = some hp →
      synchronizationHandler host (.error e) cfg st = some (st, [])) := by
  refine ⟨fun host e st => rfl, fun host e st => rfl, ?_⟩
  intro host hp e cfg st h
  simp [synchronizationHandler, h]

/-- C8 witness: a concrete undecodable body on each endpoint leaves the
concrete state untouched and sends nothing. -/
theorem decode_error_drops_hop_witness :
    gossipHandler "a:b" (.error "unexpected end of JSON input") ⟨⟨[]⟩, []⟩
      = some (⟨⟨[]⟩, []⟩, []) ∧
    solicitationHandler "a:b" (.error "unexpected end of JSON input") ⟨⟨[]⟩, []⟩
      = some (⟨⟨[]⟩, []⟩, []) ∧
    synchronizationHandler "a:b" (.error "unexpected end of JSON input") ⟨[], []⟩ ⟨⟨[]⟩, []⟩
      = some (⟨⟨[]⟩, []⟩, []) :=
  ⟨decode_error_drops_hop.1 "a:b" "unexpected end of JSON input" ⟨⟨[]⟩, []⟩,
   decode_error_drops_hop.2.1 "a:b" "unexpected end of JSON input" ⟨⟨[]⟩, []⟩,
   decode_error_drops_hop.2.2 "a:b" ("a", "b") "unexpected end of JSON input" ⟨[], []⟩ ⟨⟨[]⟩, []⟩ rfl⟩

/-- C6: a synchronization message whose callback type is not `NONE` and is
registered in neither the default nor the custom table runs no callback
and is not inserted: processing it leaves the whole server state (message
buffer and peer buffer) unchanged. -/
theorem unmatched_callback_message_dropped
    (cfg : Config) (st : ServerState) (m : Message)
    (hct : m.CallbackType ≠ NOCALLBACK)
    (hdef : cfg.getDefaultCallback m.CallbackType = none)
    (hcust : cfg.getCustomCallback m.CallbackType = none) :
    processSyncMessage cfg st m = st := by
  simp [processSyncMessage, hct, runDefaultCallbacks, hdef, runCustomCallbacks, hcust]

/-- C6 witness: a concrete message of type `unknown` with both tables
empty leaves a concrete state unchanged. -/
theorem unmatched_callback_message_dropped_witness :
    processSyncMessage ⟨[], []⟩ ⟨⟨[⟨"m0", "p0", "NONE", 1⟩]⟩, [⟨"h", "80"⟩]⟩ ⟨"m4", "p", "unknown", 0⟩
      = ⟨⟨[⟨"m0", "p0", "NONE", 1⟩]⟩, [⟨"h", "80"⟩]⟩ :=
  unmatched_callback_message_dropped ⟨[], []⟩ ⟨⟨[⟨"m0", "p0", "NONE", 1⟩]⟩, [⟨"h", "80"⟩]⟩
    ⟨"m4", "p", "unknown", 0⟩ (by decide) rfl rfl

/-- C7: validation of the custom callback table fails with the
configuration error `errNotAlowedCallbackType` exactly when some custom
callback type is a reserved default callback name, and succeeds exactly
when no custom callback type collides with a default name. -/
theorem validate_custom_callbacks_policy (cb : Option (List (String × RegistryCallback))) :
    (ValidateCustomCallbacks cb = some errNotAlowedCallbackType ↔
      ∃ kv ∈ cb.getD [], kv.1 ∈ defaultCallbackNames) ∧
    (ValidateCustomCallbacks cb = none ↔
      ∀ kv ∈ cb.getD [], kv.1 ∉ defaultCallbackNames) := by
  have key : ((cb.getD []).any (fun kv => defaultCallbackNames.contains kv.1) = true) ↔
      ∃ kv ∈ cb.getD [], kv.1 ∈ defaultCallbackNames := by
    simp [List.any_eq_true]
  unfold ValidateCustomCallbacks
  by_cases h : (cb.getD []).any (fun kv => defaultCallbackNames.contains kv.1)
  · rw [if_pos h]
    refine ⟨⟨fun _ => key.mp h, fun _ => rfl⟩, ⟨fun habs => absurd habs (by simp), ?_⟩⟩
    intro hall
    obtain ⟨kv, hmem, hcoll⟩ := key.mp h
    exact absurd hcoll (hall kv hmem)
  · rw [if_neg h]
    have hno : ∀ kv ∈ cb.getD [], kv.1 ∉ defaultCallbackNames := by
      intro kv hmem hcoll
      exact h (key.mpr ⟨kv, hmem, hcoll⟩)
    exact ⟨⟨fun habs => absurd habs (by simp), fun hex => absurd (key.mpr hex) h⟩,
      ⟨fun _ => hno, fun _ => rfl⟩⟩

/-- C7 witness: a custom table with the reserved name `ADDPEER` is
rejected and a table with the fresh name `review` is accepted. -/
theorem validate_custom_callbacks_policy_witness :
    ValidateCustomCallbacks (some [("ADDPEER", fun _ => none)]) = some errNotAlowedCallbackType ∧
    ValidateCustomCallbacks (some [("review", fun _ => none)]) = none :=
  ⟨(validate_custom_callbacks_policy (some [("ADDPEER", fun _ => none)])).1.mpr
      ⟨("ADDPEER", fun _ => none), by simp, by decide⟩,
   (validate_custom_callbacks_policy (some [("review", fun _ => none)])).2.mpr
      (by
        intro kv hmem
        simp only [Option.getD, List.mem_singleton] at hmem
        subst hmem
        decide)⟩

/-- C9: `NewCustomRegistry` returns the nil-map error and no registry
exactly on a nil callback map; on every non-nil map it returns the
registry holding that map, whose `GetCallback t` is the function stored
at key `t` when present and the inexistent-callback error when `t` is
absent. -/
theorem new_custom_registry_policy :
    NewCustomRegistry none = .error errNilCallbackMap ∧
    (∀ m : List (String × RegistryCallback), NewCustomRegistry (some m) = .ok ⟨m⟩) ∧
    (∀ (m : List (String × RegistryCallback)) (t : String) (f : RegistryCallback),
      m.lookup t = some f → CustomRegistry.GetCallback ⟨m⟩ t = .ok f) ∧
    (∀ (m : List (String × RegistryCallback)) (t : String),
      m.lookup t = none →
      CustomRegistry.GetCallback ⟨m⟩ t = .error errInexistentCustomCallback) := by
  refine ⟨rfl, fun m => rfl, ?_, ?_⟩
  · intro m t f h
    simp [CustomRegistry.GetCallback, h]
  · intro m t h
    simp [CustomRegistry.GetCallback, h]

/-- C9 witness: on a concrete one-entry map, construction succeeds, the
present key resolves to the stored function and an absent key errors; the
nil map is rejected. -/
theorem new_custom_registry_policy_witness :
    NewCustomRegistry none = .error errNilCallbackMap ∧
    NewCustomRegistry (some [("review", fun _ => some "cb error")])
      = .ok ⟨[("review", fun _ => some "cb error")]⟩ ∧
    CustomRegistry.GetCallback ⟨[("review", fun _ => some "cb error")]⟩ "review"
      = .ok (fun _ => some "cb error") ∧
    CustomRegistry.GetCallback ⟨[("review", fun _ => some "cb error")]⟩ "absent"
      = .error errInexistentCustomCallback :=
  ⟨new_custom_registry_policy.1,
   new_custom_registry_policy.2.1 [("review", fun _ => some "cb error")],
   new_custom_registry_policy.2.2.1 [("review", fun _ => some "cb error")] "review"
     (fun _ => some "cb error") rfl,
   new_custom_registry_policy.2.2.2 [("review", fun _ => some "cb error")] "absent" rfl⟩

/-- C3: for a dispatched callback returning `(ok, err)`, insertion into
the message buffer depends only on `ok`: the resulting buffer is the
`AddMessage` of the old one when `ok = true` — whatever `err` is — and
the unchanged buffer when `ok = false`. -/
theorem callback_insertion_depends_only_on_ok
    (cfg : Config) (st : ServerState) (m : Message) :
    (∀ fn, cfg.getCustomCallback m.CallbackType = some fn →
      (runCustomCallbacks m cfg st).msgBuf =
        (if (fn m.Msg).ok then st.msgBuf.addMessage m else st.msgBuf)) ∧
    (∀ fn, cfg.getDefaultCallback m.CallbackType = some fn →
      (runDefaultCallbacks m cfg st).msgBuf =
        (if (fn m (peerArg m st)).1.ok then st.msgBuf.addMessage m else st.msgBuf)) := by
  constructor
  · intro fn h
    simp only [runCustomCallbacks, h]
    split <;> simp_all
  · intro fn h
    simp only [runDefaultCallbacks, h]
    split <;> simp_all

/-- C3 witness: a custom callback returning `ok = true` with a non-nil
error still inserts the concrete message, and one returning `ok = false`
with no error leaves the concrete buffer unchanged. -/
theorem callback_insertion_depends_only_on_ok_witness :
    (runCustomCallbacks ⟨"m5", "pay", "review", 0⟩
        ⟨[], [("review", fun _ => ⟨true, some "boom"⟩)]⟩ ⟨⟨[]⟩, []⟩).msgBuf =
      (if (CbResult.mk true (some "boom")).ok then
        MessageBuffer.addMessage ⟨[]⟩ ⟨"m5", "pay", "review", 0⟩ else ⟨[]⟩) ∧
    (runCustomCallbacks ⟨"m5", "pay", "review", 0⟩
        ⟨[], [("review", fun _ => ⟨false, none⟩)]⟩ ⟨⟨[]⟩, []⟩).msgBuf =
      (if (CbResult.mk false none).ok then
        MessageBuffer.addMessage ⟨[]⟩ ⟨"m5", "pay", "review", 0⟩ else ⟨[]⟩) :=
  ⟨(callback_insertion_depends_only_on_ok
      ⟨[], [("review", fun _ => ⟨true, some "boom"⟩)]⟩ ⟨⟨[]⟩, []⟩ ⟨"m5", "pay", "review", 0⟩).1
      (fun _ => ⟨true, some "boom"⟩) rfl,
   (callback_insertion_depends_only_on_ok
      ⟨[], [("review", fun _ => ⟨false, none⟩)]⟩ ⟨⟨[]⟩, []⟩ ⟨"m5", "pay", "review", 0⟩).1
      (fun _ => ⟨false, none⟩) rfl⟩

theorem MessageBuffer.containsID_addMessage_of (buf : MessageBuffer) (m : Message)
    (id : String) (h : buf.containsID id = true) :
    (buf.addMessage m).containsID id = true := by
  unfold MessageBuffer.addMessage
  split
  · exact h
  · simp only [MessageBuffer.containsID, List.any_append] at h ⊢
    simp [h]

theorem runCustomCallbacks_containsID_free (m : Message) (cfg : Config) (st : ServerState)
    (hfree : st.msgBuf.containsID m.ID = false) :
    (runCustomCallbacks m cfg st).msgBuf.containsID m.ID =
      (match cfg.getCustomCallback m.CallbackType with
       | some fn => (fn m.Msg).ok
       | none => false) := by
  unfold runCustomCallbacks
  cases hcust : cfg.getCustomCallback m.CallbackType with
  | none => simpa using hfree
  | some fn =>
    cases hok : (fn m.Msg).ok with
    | true => simp [hok, MessageBuffer.containsID_addMessage_self]
    | false => simpa [hok] using hfree

theorem runCustomCallbacks_containsID_mono (m : Message) (cfg : Config) (st : ServerState)
    (id : String) (h : st.msgBuf.containsID id = true) :
    (runCustomCallbacks m cfg st).msgBuf.containsID id = true := by
  unfold runCustomCallbacks
  cases hcust : cfg.getCustomCallback m.CallbackType with
  | none => exact h
  | some fn =>
    cases hok : (fn m.Msg).ok with
    | true => simpa [hok] using MessageBuffer.containsID_addMessage_of st.msgBuf m id h
    | false => simpa [hok] using h

/-- C1: a synchronization message with the sentinel callback type `NONE`
is handed to `AddMessage` unconditionally; a message with any other
callback type goes through callback dispatch and ends up in the message
buffer exactly when a matched callback returned `ok = true`. -/
theorem sync_insertion_policy (cfg : Config) (st : ServerState) (m : Message) :
    (m.CallbackType = NOCALLBACK →
      processSyncMessage cfg st m = { st with msgBuf := st.msgBuf.addMessage m }) ∧
    (m.CallbackType ≠ NOCALLBACK → st.msgBuf.containsID m.ID = false →
      (processSyncMessage cfg st m).msgBuf.containsID m.ID = matchedOk cfg st m) := by
  constructor
  · intro h
    simp [processSyncMessage, h]
  · intro hne hfree
    simp only [processSyncMessage, if_pos hne]
    unfold matchedOk runDefaultCallbacks
    cases hdef : cfg.getDefaultCallback m.CallbackType with
    | none =>
      simp only [runCustomCallbacks_containsID_free m cfg st hfree]
      simp
    | some fn =>
      simp only []
      cases hok : (fn m (peerArg m st)).1.ok with
      | true =>
        simp only [hok, if_true, Bool.true_or]
        exact runCustomCallbacks_containsID_mono m cfg _ m.ID
          (MessageBuffer.containsID_addMessage_self st.msgBuf m)
      | false =>
        simp only [hok, if_false, Bool.false_or]
        exact runCustomCallbacks_containsID_free m cfg _ hfree

/-- C1 witness: a concrete `NONE` message is added directly, and a
concrete `review` message whose registered custom callback accepts ends
up in the buffer in agreement with `matchedOk`. -/
theorem sync_insertion_policy_witness :
    processSyncMessage ⟨[], []⟩ ⟨⟨[]⟩, []⟩ ⟨"m1", "hello", "NONE", 0⟩
      = { msgBuf := MessageBuffer.addMessage ⟨[]⟩ ⟨"m1", "hello", "NONE", 0⟩, peerBuf := [] } ∧
    (processSyncMessage ⟨[], [("review", fun _ => ⟨true, none⟩)]⟩ ⟨⟨[]⟩, []⟩
        ⟨"m2", "x", "review", 0⟩).msgBuf.containsID "m2"
      = matchedOk ⟨[], [("review", fun _ => ⟨true, none⟩)]⟩ ⟨⟨[]⟩, []⟩ ⟨"m2", "x", "review", 0⟩ :=
  ⟨(sync_insertion_policy ⟨[], []⟩ ⟨⟨[]⟩, []⟩ ⟨"m1", "hello", "NONE", 0⟩).1 rfl,
   (sync_insertion_policy ⟨[], [("review", fun _ => ⟨true, none⟩)]⟩ ⟨⟨[]⟩, []⟩
      ⟨"m2", "x", "review", 0⟩).2 (by decide) rfl⟩

/-- C4: on a decoded gossip body the handler computes the missing digests
as the sender's digests minus the local digest buffer (membership by
`id`); when missing is non-empty it sends exactly one solicitation back
to the gossip's sender carrying the sender's round number and exactly the
missing digests, and when missing is empty it sends nothing; the state is
unchanged either way. -/
theorem gossip_reply_policy (host : String) (g : HTTPGossip) (st : ServerState)
    (hostAddr hostPort : String)
    (hhost : parseHost host = some (hostAddr, hostPort)) :
    (∀ d : Digest, d ∈ getMissingDigests g.Digests st.msgBuf.digestBuffer ↔
      (d ∈ g.Digests ∧ ∀ mm ∈ st.msgBuf.messages, mm.ID ≠ d.ID)) ∧
    (getMissingDigests g.Digests st.msgBuf.digestBuffer ≠ [] →
      gossipHandler host (.ok g) st =
        some (st, [.solicitation
          ⟨hostAddr, hostPort, g.RoundNumber, getMissingDigests g.Digests st.msgBuf.digestBuffer⟩
          g.Addr g.Port])) ∧
    (getMissingDigests g.Digests st.msgBuf.digestBuffer = [] →
      gossipHandler host (.ok g) st = some (st, [])) := by
  refine ⟨?_, ?_, ?_⟩
  · intro d
    simp [getMissingDigests, MessageBuffer.digestBuffer, List.mem_filter]
  · intro hne
    have hpos : 0 < (getMissingDigests g.Digests st.msgBuf.digestBuffer).length :=
      List.length_pos.mpr hne
    simp [gossipHandler, hhost, hpos]
  · intro hnil
    simp [gossipHandler, hhost, hnil]

/-- C4 witness: with an empty local buffer a concrete gossip naming one
digest triggers one solicitation back to its sender carrying that digest
and the sender's round number; a concrete gossip naming nothing missing
gets no reply. -/
theorem gossip_reply_policy_witness :
    gossipHandler "1.1.1.1:7" (.ok ⟨"2.2.2.2", "8", 5, [⟨"d1", "NONE"⟩]⟩) ⟨⟨[]⟩, []⟩
      = some (⟨⟨[]⟩, []⟩,
          [.solicitation ⟨"1.1.1.1", "7", 5, [⟨"d1", "NONE"⟩]⟩ "2.2.2.2" "8"]) ∧
    gossipHandler "1.1.1.1:7" (.ok ⟨"2.2.2.2", "8", 5, []⟩) ⟨⟨[]⟩, []⟩
      = some (⟨⟨[]⟩, []⟩, []) :=
  ⟨(gossip_reply_policy "1.1.1.1:7" ⟨"2.2.2.2", "8", 5, [⟨"d1", "NONE"⟩]⟩ ⟨⟨[]⟩, []⟩
      "1.1.1.1" "7" rfl).2.1 (by decide),
   (gossip_reply_policy "1.1.1.1:7" ⟨"2.2.2.2", "8", 5, []⟩ ⟨⟨[]⟩, []⟩
      "1.1.1.1" "7" rfl).2.2 rfl⟩

/-- C5: on a decoded solicitation the handler resolves the wanted digests
against the local message buffer — every sent message is locally stored
and was asked for by `id`, every wanted `id` with a locally stored
message is served — and sends exactly one synchronization with those
messages to the solicitation's sender, leaving the state unchanged. -/
theorem solicitation_reply_policy (host : String) (s : HTTPSolicitation) (st : ServerState)
    (hostAddr hostPort : String)
    (hhost : parseHost host = some (hostAddr, hostPort)) :
    solicitationHandler host (.ok s) st =
      some (st, [.synchronization
        ⟨hostAddr, hostPort, getMissingMessageBuffer s.Digests st.msgBuf⟩ s.Addr s.Port]) ∧
    (∀ mm ∈ getMissingMessageBuffer s.Digests st.msgBuf,
      mm ∈ st.msgBuf.messages ∧ ∃ d ∈ s.Digests, d.ID = mm.ID) ∧
    (∀ d ∈ s.Digests, (∃ mm ∈ st.msgBuf.messages, mm.ID = d.ID) →
      ∃ mm ∈ getMissingMessageBuffer s.Digests st.msgBuf, mm.ID = d.ID) := by
  refine ⟨by simp [solicitationHandler, hhost], ?_, ?_⟩
  · intro mm hmm
    rw [getMissingMessageBuffer, List.mem_filterMap] at hmm
    obtain ⟨d, hd, hfind⟩ := hmm
    have h1 := List.mem_of_find?_eq_some hfind
    have h2 := List.find?_some hfind
    simp only [decide_eq_true_eq] at h2
    exact ⟨h1, d, hd, h2.symm⟩
  · intro d hd hex
    obtain ⟨mm, hmm, hid⟩ := hex
    have hsome : (st.msgBuf.messages.find? (fun x => x.ID = d.ID)).isSome := by
      rw [List.find?_isSome]
      exact ⟨mm, hmm, by simp [hid]⟩
    obtain ⟨mm2, hfind⟩ := Option.isSome_iff_exists.mp hsome
    refine ⟨mm2, ?_, ?_⟩
    · rw [getMissingMessageBuffer, List.mem_filterMap]
      exact ⟨d, hd, hfind⟩
    · have h2 := List.find?_some hfind
      simpa using h2

/-- C5 witness: a concrete solicitation wanting a stored id and an absent
id gets back one synchronization carrying exactly the stored message,
sent to the solicitation's sender. -/
theorem solicitation_reply_policy_witness :
    solicitationHandler "3.3.3.3:9"
      (.ok ⟨"4.4.4.4", "10", 2, [⟨"m1", "NONE"⟩, ⟨"mX", "NONE"⟩]⟩)
      ⟨⟨[⟨"m1", "hello", "NONE", 0⟩]⟩, []⟩
      = some (⟨⟨[⟨"m1", "hello", "NONE", 0⟩]⟩, []⟩,
          [.synchronization ⟨"3.3.3.3", "9", [⟨"m1", "hello", "NONE", 0⟩]⟩ "4.4.4.4" "10"]) :=
  (solicitation_reply_policy "3.3.3.3:9"
    ⟨"4.4.4.4", "10", 2, [⟨"m1", "NONE"⟩, ⟨"mX", "NONE"⟩]⟩
    ⟨⟨[⟨"m1", "hello", "NONE", 0⟩]⟩, []⟩ "3.3.3.3" "9" rfl).1

end BMMC
